import Mathlib

/-!
# Verification of the CodeAtlas scanning/indexing pipeline and rule engine

A shallow embedding of the algorithmic core of the `code_atlas` package
(`scanner.py` and `rules.py`), together with theorems settling the stated
properties of its specification.

Modelling conventions:
* Python numbers are modelled exactly: `int` as `ℤ`, `float` as `ℚ`
  (the arithmetic the code performs on these values stays within exactly
  representable ranges for the properties below, so rationals are a faithful
  model of the value-level behaviour).
* Fallible computations return `Option`, `none` standing for a raised
  exception.
* Filesystem reads, `git` invocations and the `radon` metric computations are
  external inputs to the functions under study; their results appear as
  explicit arguments (a `FileOutcome` value describes what reading and parsing
  one file produced).
-/

namespace CodeAtlas

/-! ## Data model: raw metrics, complexity entries, git metadata, entities -/

/-- `raw` block of a file record (from `radon.raw.analyze`); all counters are
non-negative integers. -/
structure RawMetrics where
  loc : Nat
  sloc : Nat
  comments : Nat
  multi : Nat
  blank : Nat
  deriving DecidableEq

/-- The all-zero raw metrics used on scan failure. -/
def zeroRaw : RawMetrics := ⟨0, 0, 0, 0, 0⟩

/-- One entry of the `complexity` list (from `radon.complexity.cc_visit`). -/
structure CxEntry where
  function : String
  complexity : ℤ
  lineno : Nat
  deriving DecidableEq

/-- `git` metadata block of a file record. -/
structure GitMeta where
  commits : Nat
  last_author : String
  last_commit : String
  deriving DecidableEq

/-- The default git metadata used on scan failure. -/
def zeroGit : GitMeta := ⟨0, "", ""⟩

/-- One element of a file record's `entities` list, as built by
`extract_entities`: `methods` and `bases` are present exactly for class
entities. -/
structure Entity where
  type : String
  name : String
  lineno : Nat
  end_lineno : Nat
  docstring : Option String
  methods : Option (List String)
  bases : Option (List String)
  deriving DecidableEq

/-- A file record as returned by `ASTScanner.scan_file` (`error = none` models
the key being absent from the dict). -/
structure SourceRecord where
  path : String
  entities : List Entity
  complexity : List CxEntry
  raw : RawMetrics
  comment_ratio : ℚ
  git : GitMeta
  has_tests : Bool
  error : Option String
  deriving DecidableEq

/-! ## Python statement trees and `extract_entities`

`ast.walk` visits every node of the tree in breadth-first order.  For entity
extraction only three shapes of statement matter: `ClassDef`,
`FunctionDef`/`AsyncFunctionDef`, and everything else; each may contain a body
of nested statements that `ast.walk` descends into. -/

/-- Python statement fragment relevant to `extract_entities`.  `end_lineno` is
optional on AST nodes, matching `node.end_lineno or node.lineno` in the
source. -/
inductive PyStmt : Type where
  | classDef (name : String) (bases : List String) (lineno : Nat)
      (end_lineno : Option Nat) (docstring : Option String) (body : List PyStmt)
  | funcDef (isAsync : Bool) (name : String) (lineno : Nat)
      (end_lineno : Option Nat) (docstring : Option String) (body : List PyStmt)
  | other (body : List PyStmt)

/-- The child statements a node contributes to the `ast.walk` queue. -/
def PyStmt.body : PyStmt → List PyStmt
  | .classDef _ _ _ _ _ b => b
  | .funcDef _ _ _ _ _ b => b
  | .other b => b

mutual

/-- Size measure for statement trees (termination of `walkList`). -/
def PyStmt.size : PyStmt → Nat
  | .classDef _ _ _ _ _ b => 1 + PyStmt.sizeList b
  | .funcDef _ _ _ _ _ b => 1 + PyStmt.sizeList b
  | .other b => 1 + PyStmt.sizeList b

/-- Total size of a list of statement trees. -/
def PyStmt.sizeList : List PyStmt → Nat
  | [] => 0
  | s :: rest => PyStmt.size s + PyStmt.sizeList rest

end

theorem PyStmt.size_eq (s : PyStmt) : s.size = 1 + PyStmt.sizeList s.body := by
  cases s <;> rfl

theorem PyStmt.sizeList_append (l₁ l₂ : List PyStmt) :
    PyStmt.sizeList (l₁ ++ l₂) = PyStmt.sizeList l₁ + PyStmt.sizeList l₂ := by
  induction l₁ with
  | nil => simp [PyStmt.sizeList]
  | cons s rest ih => simp [PyStmt.sizeList, ih]; ring

/-- Breadth-first traversal of a queue of statements, exactly as `ast.walk`
produces nodes (pop the front, yield it, push its children at the back).
`ast.walk(tree)` on a module is the module node followed by
`walkList tree.body`; the module node itself never yields an entity. -/
def walkList : List PyStmt → List PyStmt
  | [] => []
  | s :: todo => s :: walkList (todo ++ s.body)
  termination_by l => PyStmt.sizeList l
  decreasing_by
    simp only [PyStmt.sizeList, PyStmt.sizeList_append]
    have h := PyStmt.size_eq s
    omega

/-- `node.end_lineno or node.lineno`: Python's `or` takes the right operand
when the left one is falsy (`None`, or the integer `0`). -/
def pyOrNat (a : Option Nat) (b : Nat) : Nat :=
  match a with
  | some n => if n = 0 then b else n
  | none => b

/-- The method-name list of a class entity: names of the `FunctionDef` /
`AsyncFunctionDef` members of the class body (one level only). -/
def methodName : PyStmt → Option String
  | .funcDef _ n _ _ _ _ => some n
  | _ => none

/-- The entity (if any) contributed by one visited node, following the
`if isinstance(node, ast.ClassDef) … elif isinstance(node, (ast.FunctionDef,
ast.AsyncFunctionDef))` branches of `extract_entities`. -/
def toEntity : PyStmt → Option Entity
  | .classDef name bases lineno endLn doc body =>
      some { type := "class", name := name, lineno := lineno,
             end_lineno := pyOrNat endLn lineno, docstring := doc,
             methods := some (body.filterMap methodName), bases := some bases }
  | .funcDef isAsync name lineno endLn doc _ =>
      some { type := if isAsync then "async_function" else "function",
             name := name, lineno := lineno,
             end_lineno := pyOrNat endLn lineno, docstring := doc,
             methods := none, bases := none }
  | .other _ => none

/-- `extract_entities(tree)` for a module whose body is `moduleBody`. -/
def extract_entities (moduleBody : List PyStmt) : List Entity :=
  (walkList moduleBody).filterMap toEntity

/-! ## Rounding

`round(x, 3)` in Python rounds half to even; the values rounded here are
ratios of machine integers, modelled exactly in `ℚ`. -/

/-- Round a rational to the nearest integer, ties to even. -/
def roundHalfEven (x : ℚ) : ℤ :=
  if x - ⌊x⌋ < 1 / 2 then ⌊x⌋
  else if 1 / 2 < x - ⌊x⌋ then ⌊x⌋ + 1
  else if ⌊x⌋ % 2 = 0 then ⌊x⌋ else ⌊x⌋ + 1

/-- `round(x, 3)`: three-decimal rounding, half to even. -/
def round3 (x : ℚ) : ℚ := (roundHalfEven (1000 * x) : ℚ) / 1000

/-! ## `scan_file` -/

/-- What reading and parsing one file produced; the input to `scan_file`'s
control flow.  `ok` carries the parsed module body together with the results
of the metric computations (`compute_metrics`), the git metadata and the
`has_tests` probe; `syntaxError` is a raised `SyntaxError` with its message
and line; `otherError` is any other raised exception with its `str()`. -/
inductive FileOutcome : Type where
  | ok (body : List PyStmt) (complexity : List CxEntry) (raw : RawMetrics)
      (git : GitMeta) (has_tests : Bool)
  | syntaxError (msg : String) (lineno : Nat)
  | otherError (msg : String)

/-- `ASTScanner.scan_file`, given the path string it would store (the
relative-or-absolute path computation) and the outcome of reading/parsing the
file. -/
def scanFile (path : String) (o : FileOutcome) : SourceRecord :=
  match o with
  | .ok body cx raw git ht =>
      { path := path
        entities := extract_entities body
        complexity := cx
        raw := raw
        comment_ratio :=
          round3 (if raw.loc > 0 then (raw.comments : ℚ) / (raw.loc : ℚ) else 0)
        git := git
        has_tests := ht
        error := none }
  | .syntaxError msg lineno =>
      { path := path, entities := [], complexity := [], raw := zeroRaw
        comment_ratio := 0, git := zeroGit, has_tests := false
        error := some ("SyntaxError: " ++ msg ++ " at line " ++ toString lineno) }
  | .otherError msg =>
      { path := path, entities := [], complexity := [], raw := zeroRaw
        comment_ratio := 0, git := zeroGit, has_tests := false
        error := some msg }

/-! ## Rule engine: the condition-expression fragment

`RuleEngine._check_condition` evaluates the condition string with
`eval(condition, {"__builtins__": {}}, context)`, i.e. with the host
language's expression evaluator, an emptied builtin namespace, and the
six-variable context as locals.  The embedding below gives CPython semantics
for the expression fragment exercised in this development: numeric and
boolean literals, names, arithmetic, comparisons, boolean connectives,
attribute access and zero-argument calls.  Booleans are integers, `/` is
always float division, `and`/`or` return an operand (not necessarily a
boolean), `==`/`!=` between unrelated types yield `False`/`True` without
raising, and every failure — unknown name, unresolved attribute, calling a
non-callable, division by zero, ordering unrelated types — raises, modelled
as `none`. -/

/-- A bound method reachable inside the fragment (`float.is_integer` is the
representative the development needs). -/
inductive PyMethod : Type where
  | floatIsInteger (q : ℚ)
  deriving DecidableEq

/-- Values of the condition-evaluation fragment.  `emptyDict` is the value
the emptied `__builtins__` global is bound to. -/
inductive PyVal : Type where
  | int (n : ℤ)
  | float (q : ℚ)
  | bool (b : Bool)
  | emptyDict
  | method (m : PyMethod)
  deriving DecidableEq

/-- The integer a value stands for in integer arithmetic (`bool` is a subtype
of `int` in Python). -/
def PyVal.intLike? : PyVal → Option ℤ
  | .int n => some n
  | .bool b => some (if b then 1 else 0)
  | _ => none

/-- The number a value stands for in mixed arithmetic and comparisons. -/
def PyVal.toNum? : PyVal → Option ℚ
  | .int n => some (n : ℚ)
  | .float q => some q
  | .bool b => some (if b then 1 else 0)
  | _ => none

/-- `bool(v)`. -/
def PyVal.truthy : PyVal → Bool
  | .int n => decide (n ≠ 0)
  | .float q => decide (q ≠ 0)
  | .bool b => b
  | .emptyDict => false
  | .method _ => true

/-- Binary arithmetic operators of the fragment. -/
inductive PyBinOp : Type where
  | add
  | sub
  | mul
  | div
  deriving DecidableEq

/-- Comparison operators of the fragment. -/
inductive PyCmpOp : Type where
  | lt
  | le
  | gt
  | ge
  | eq
  | ne
  deriving DecidableEq

/-- Integer result of an arithmetic operator (`div` never reaches this: `/`
always produces a float and is handled separately). -/
def intBinOp : PyBinOp → ℤ → ℤ → ℤ
  | .add, a, b => a + b
  | .sub, a, b => a - b
  | .mul, a, b => a * b
  | .div, _, _ => 0

/-- Rational result of an arithmetic operator. -/
def ratBinOp : PyBinOp → ℚ → ℚ → ℚ
  | .add, a, b => a + b
  | .sub, a, b => a - b
  | .mul, a, b => a * b
  | .div, a, b => a / b

/-- Arithmetic on values: `int op int` stays `int` (except `/`), anything
involving a `float` is `float`, non-numeric operands raise (`none`), and `/`
by zero raises. -/
def evalBinOp : PyBinOp → PyVal → PyVal → Option PyVal
  | .div, a, b =>
      match a.toNum?, b.toNum? with
      | some x, some y => if y = 0 then none else some (.float (x / y))
      | _, _ => none
  | op, a, b =>
      match a.intLike?, b.intLike? with
      | some i, some j => some (.int (intBinOp op i j))
      | _, _ =>
          match a.toNum?, b.toNum? with
          | some x, some y => some (.float (ratBinOp op x y))
          | _, _ => none

/-- `==` on values: numbers compare by value, non-numeric values structurally,
unrelated types compare unequal without raising. -/
def pyEq (a b : PyVal) : Bool :=
  match a.toNum?, b.toNum? with
  | some x, some y => decide (x = y)
  | _, _ =>
      match a, b with
      | .emptyDict, .emptyDict => true
      | .method m₁, .method m₂ => decide (m₁ = m₂)
      | _, _ => false

/-- Numeric ordering comparison. -/
def ratCmp : PyCmpOp → ℚ → ℚ → Bool
  | .lt, a, b => decide (a < b)
  | .le, a, b => decide (a ≤ b)
  | .gt, a, b => decide (b < a)
  | .ge, a, b => decide (b ≤ a)
  | .eq, a, b => decide (a = b)
  | .ne, a, b => decide (a ≠ b)

/-- Comparison on values: `==`/`!=` never raise; the order comparisons need
both operands numeric and raise (`none`) otherwise. -/
def evalCmp : PyCmpOp → PyVal → PyVal → Option PyVal
  | .eq, a, b => some (.bool (pyEq a b))
  | .ne, a, b => some (.bool (!pyEq a b))
  | op, a, b =>
      match a.toNum?, b.toNum? with
      | some x, some y => some (.bool (ratCmp op x y))
      | _, _ => none

/-- Attribute lookup on values.  The development only needs
`float.is_integer`; any other lookup raises `AttributeError` (`none`). -/
def getAttr : PyVal → String → Option PyVal
  | .float q, "is_integer" => some (.method (.floatIsInteger q))
  | _, _ => none

/-- Calling a value with no arguments; non-callables raise (`none`). -/
def callVal : PyVal → Option PyVal
  | .method (.floatIsInteger q) => some (.bool (decide (q.den = 1)))
  | _ => none

/-- Condition expressions (`call0 f` is the call `f()`). -/
inductive PyExpr : Type where
  | intLit (n : ℤ)
  | floatLit (q : ℚ)
  | boolLit (b : Bool)
  | name (s : String)
  | binop (op : PyBinOp) (a b : PyExpr)
  | cmp (op : PyCmpOp) (a b : PyExpr)
  | andE (a b : PyExpr)
  | orE (a b : PyExpr)
  | notE (a : PyExpr)
  | attr (a : PyExpr) (fld : String)
  | call0 (f : PyExpr)
  deriving DecidableEq

/-- The evaluation context `_check_condition` builds: exactly six variable
bindings. -/
structure EvalContext where
  complexity : PyVal
  loc : PyVal
  comment_ratio : PyVal
  max_complexity : PyVal
  max_loc : PyVal
  min_comment_ratio : PyVal
  deriving DecidableEq

/-- Name resolution under `eval(condition, {"__builtins__": {}}, context)`:
the six context variables (locals), then the globals, which hold exactly
`__builtins__` bound to an empty dict; anything else raises `NameError`. -/
def lookupName (ctx : EvalContext) (s : String) : Option PyVal :=
  if s = "complexity" then some ctx.complexity
  else if s = "loc" then some ctx.loc
  else if s = "comment_ratio" then some ctx.comment_ratio
  else if s = "max_complexity" then some ctx.max_complexity
  else if s = "max_loc" then some ctx.max_loc
  else if s = "min_comment_ratio" then some ctx.min_comment_ratio
  else if s = "__builtins__" then some .emptyDict
  else none

/-- CPython evaluation of a condition expression; `and`/`or` short-circuit
and return an operand. -/
def PyExpr.eval (ctx : EvalContext) : PyExpr → Option PyVal
  | .intLit n => some (.int n)
  | .floatLit q => some (.float q)
  | .boolLit b => some (.bool b)
  | .name s => lookupName ctx s
  | .binop op a b => do evalBinOp op (← a.eval ctx) (← b.eval ctx)
  | .cmp op a b => do evalCmp op (← a.eval ctx) (← b.eval ctx)
  | .andE a b => do
      let va ← a.eval ctx
      if va.truthy then b.eval ctx else some va
  | .orE a b => do
      let va ← a.eval ctx
      if va.truthy then some va else b.eval ctx
  | .notE a => do
      let va ← a.eval ctx
      some (.bool (!va.truthy))
  | .attr a fld => do getAttr (← a.eval ctx) fld
  | .call0 f => do callVal (← f.eval ctx)

/-- Whether an expression syntactically contains an attribute access or a
call. -/
def PyExpr.hasAttrOrCall : PyExpr → Bool
  | .intLit _ => false
  | .floatLit _ => false
  | .boolLit _ => false
  | .name _ => false
  | .binop _ a b => a.hasAttrOrCall || b.hasAttrOrCall
  | .cmp _ a b => a.hasAttrOrCall || b.hasAttrOrCall
  | .andE a b => a.hasAttrOrCall || b.hasAttrOrCall
  | .orE a b => a.hasAttrOrCall || b.hasAttrOrCall
  | .notE a => a.hasAttrOrCall
  | .attr _ _ => true
  | .call0 _ => true

/-- A condition as configured: either a string the expression parser rejects
(evaluating it raises a `SyntaxError`) or a parsed expression. -/
inductive RuleCondition : Type where
  | malformed (text : String)
  | expr (e : PyExpr)
  deriving DecidableEq

/-- Evaluating a condition: a malformed condition string raises at parse
time. -/
def evalCond (c : RuleCondition) (ctx : EvalContext) : Option PyVal :=
  match c with
  | .malformed _ => none
  | .expr e => e.eval ctx

/-! ## Rule engine: configuration, context construction, evaluation -/

/-- The `metrics` block of the rule configuration (`none` models an absent
key, for which `_check_condition` substitutes its fixed defaults). -/
structure MetricsConfig where
  max_complexity : Option PyVal
  max_loc : Option PyVal
  min_comment_ratio : Option PyVal
  deriving DecidableEq

/-- `RuleEngine._get_avg_complexity`: 0.0 for an empty complexity list, else
the sum of the `complexity` values divided by their count. -/
def getAvgComplexity (fd : SourceRecord) : ℚ :=
  if fd.complexity = [] then 0
  else (fd.complexity.map fun c => (c.complexity : ℚ)).sum / (fd.complexity.length : ℚ)

/-- The context dict `_check_condition` builds for a file. -/
def buildContext (fd : SourceRecord) (metrics : MetricsConfig) : EvalContext :=
  { complexity := .float (getAvgComplexity fd)
    loc := .int fd.raw.loc
    comment_ratio := .float fd.comment_ratio
    max_complexity := metrics.max_complexity.getD (.int 10)
    max_loc := metrics.max_loc.getD (.int 500)
    min_comment_ratio := metrics.min_comment_ratio.getD (.float (1 / 10)) }

/-- `RuleEngine._check_condition`: `bool(...)` of a successful evaluation;
any raised error means the rule is not triggered. -/
def checkCondition (cond : RuleCondition) (fd : SourceRecord)
    (metrics : MetricsConfig) : Bool :=
  match evalCond cond (buildContext fd metrics) with
  | some v => v.truthy
  | none => false

/-- One entry of the configuration's `actions` list. -/
structure RuleAction where
  id : String
  condition : RuleCondition
  message : String
  action : String
  deriving DecidableEq

/-- A loaded rule configuration. -/
structure RuleConfig where
  metrics : MetricsConfig
  actions : List RuleAction
  deriving DecidableEq

/-- One emitted violation. -/
structure Violation where
  id : String
  message : String
  action : String
  file : String
  deriving DecidableEq

/-- `RuleEngine.evaluate`: walk the `actions` in declared order, appending a
violation for each action whose condition checks true on the file. -/
def RuleEngine.evaluate (cfg : RuleConfig) (fd : SourceRecord) : List Violation :=
  cfg.actions.filterMap fun a =>
    if checkCondition a.condition fd cfg.metrics then
      some { id := a.id, message := a.message, action := a.action, file := fd.path }
    else none

/-! ## Directory scan: per-file record selection (incremental reuse) -/

/-- A file discovered by the directory walk (`self.root.rglob("*.py")` after
ignore filtering), together with the inputs that decide how
`ASTScanner.scan_directory` handles it. -/
structure DiscoveredFile where
  relPath : String
  /-- Modelled from the spec: the verdict of `FileCache.is_unchanged`
  (module `code_atlas.cache`, whose source is not among the files at hand) —
  `true` iff the file's current fingerprint equals the one stored for its
  path in the persisted cache. -/
  unchanged : Bool
  outcome : FileOutcome

/-- The record `scan_directory` appends for one discovered file: in
incremental mode, an unchanged file whose relative path is found in the
previously persisted index reuses that prior record verbatim; otherwise the
file is scanned fresh with `scan_file`.  `existing` is the lookup into the
prior index's `files` (keyed by `path`); when no prior index could be loaded
it is the empty lookup. -/
def scanStep (incremental : Bool) (existing : String → Option SourceRecord)
    (f : DiscoveredFile) : SourceRecord :=
  if incremental && f.unchanged then
    match existing f.relPath with
    | some r => r
    | none => scanFile f.relPath f.outcome
  else scanFile f.relPath f.outcome

/-- The `files` list assembled by `scan_directory`'s main loop (deep analysis
off, as in the default configuration): one record per discovered file, in
discovery order. -/
def scanRecords (incremental : Bool) (existing : String → Option SourceRecord)
    (files : List DiscoveredFile) : List SourceRecord :=
  files.map (scanStep incremental existing)

/-! ## Symbol index -/

/-- The location string written for one entity: `"path:start_line"`. -/
def entityLocation (fd : SourceRecord) (e : Entity) : String :=
  fd.path ++ ":" ++ toString e.lineno

/-- One dict write `d[k] = v` on a string-keyed dict modelled as a lookup
function. -/
def dictWrite (m : String → Option String) (kv : String × String) :
    String → Option String :=
  fun n => if n = kv.1 then some kv.2 else m n

/-- The symbol index built at the end of `scan_directory`: iterate the file
records in discovery order, each record's entities in extraction order, and
write `name -> "path:start_line"` into the dict. -/
def symbolIndex (files : List SourceRecord) : String → Option String :=
  files.foldl
    (fun m fd => fd.entities.foldl (fun m e => dictWrite m (e.name, entityLocation fd e)) m)
    (fun _ => none)

/-- The sequence of writes the symbol-index loop performs, in order. -/
def symbolWrites (files : List SourceRecord) : List (String × String) :=
  files.flatMap fun fd => fd.entities.map fun e => (e.name, entityLocation fd e)

/-! ## Dependency graph -/

/-- `needle` is a prefix of `hay` (on character lists). -/
def isPrefixL : List Char → List Char → Bool
  | [], _ => true
  | _ :: _, [] => false
  | a :: as, b :: bs => decide (a = b) && isPrefixL as bs

/-- Python's `needle in hay` on strings: contiguous substring. -/
def containsSub (n : List Char) : List Char → Bool
  | [] => n.isEmpty
  | c :: rest => isPrefixL n (c :: rest) || containsSub n rest

/-- Python's `hay.endswith(needle)`. -/
def isSuffixL (n h : List Char) : Bool := isPrefixL n.reverse h.reverse

/-- The resolution test of `build_dependency_graph`: import target `t`
matches candidate path `p` iff `t in p` or
`p.endswith(t.replace(".", "/") + ".py")`. -/
def importMatches (t p : String) : Bool :=
  containsSub t.toList p.toList ||
    isSuffixL ((t.toList.map fun c => if c = '.' then '/' else c) ++ ".py".toList)
      p.toList

/-- One entry of the dependency graph. -/
structure DepEntry where
  imports : List String
  imported_by : List String
  deriving DecidableEq

/-- The final `imported_by` list of the entry for path `p`: the appending
loops of `build_dependency_graph` run over the files in insertion order and,
within a file, over its imports in order, appending the importing file's path
once per import target that matches `p`.  `fileImports` pairs each file path
with the import targets pass 1 extracted for it (empty when re-reading or
re-parsing the file failed). -/
def importedBy (fileImports : List (String × List String)) (p : String) :
    List String :=
  fileImports.flatMap fun fi =>
    (fi.2.filter fun t => importMatches t p).map fun _ => fi.1

/-- `build_dependency_graph` after both passes: every file path is mapped to
its own imports and the fully accumulated `imported_by` list. -/
def buildDependencyGraph (fileImports : List (String × List String)) :
    List (String × DepEntry) :=
  fileImports.map fun fi => (fi.1, ⟨fi.2, importedBy fileImports fi.1⟩)

/-! ## Concrete sample data shared by the witnesses -/

/-- A concrete file record with complexity measurements 4 and 6. -/
def sampleRecordCx : SourceRecord :=
  { path := "src/a.py"
    entities := []
    complexity := [⟨"f", 4, 1⟩, ⟨"g", 6, 9⟩]
    raw := ⟨20, 15, 2, 0, 3⟩
    comment_ratio := 1 / 10
    git := zeroGit
    has_tests := false
    error := none }

/-- A concrete file record with no complexity measurements. -/
def sampleRecordNoCx : SourceRecord :=
  { path := "src/b.py"
    entities := []
    complexity := []
    raw := ⟨4, 4, 0, 0, 0⟩
    comment_ratio := 0
    git := zeroGit
    has_tests := false
    error := none }

/-- A rule configuration whose `metrics` block has no explicit thresholds. -/
def metricsAbsent : MetricsConfig := ⟨none, none, none⟩

/-- A concrete successful scan outcome: 10 total lines, 2 comment lines. -/
def sampleOutcome : FileOutcome := .ok [] [] ⟨10, 8, 2, 0, 0⟩ zeroGit false

/-! ## C3: syntax errors degrade the record and never abort the scan -/

/-- C3: for a file whose text fails to parse, `scan_file` returns a record
whose `error` field names the error kind and line, whose entity and
complexity lists are empty, whose raw metrics are all zero and whose comment
ratio is 0; and the enclosing directory scan still produces one record per
discovered file (it is a total function, so no exception interrupts it). -/
theorem syntax_error_record_and_scan_continues :
    (∀ (path msg : String) (lineno : Nat),
      (scanFile path (.syntaxError msg lineno)).error =
          some ("SyntaxError: " ++ msg ++ " at line " ++ toString lineno) ∧
        (scanFile path (.syntaxError msg lineno)).entities = [] ∧
        (scanFile path (.syntaxError msg lineno)).complexity = [] ∧
        (scanFile path (.syntaxError msg lineno)).raw = zeroRaw ∧
        (scanFile path (.syntaxError msg lineno)).comment_ratio = 0) ∧
      ∀ (incremental : Bool) (existing : String → Option SourceRecord)
        (files : List DiscoveredFile),
        (scanRecords incremental existing files).length = files.length := by
  refine ⟨fun path msg lineno => ⟨rfl, rfl, rfl, rfl, rfl⟩,
    fun incremental existing files => ?_⟩
  simp [scanRecords]

/-! ## C10: any other exception also degrades to a complete record -/

/-- C10: for any exception other than a syntax error, `scan_file` still
returns a record with the path set, the exception's message as `error`, empty
entity and complexity lists, all-zero raw metrics, comment ratio 0 and
`has_tests = false`; being a total function, it never raises. -/
theorem scan_file_other_error_total :
    ∀ (path msg : String),
      scanFile path (.otherError msg) =
        { path := path, entities := [], complexity := [], raw := zeroRaw
          comment_ratio := 0, git := zeroGit, has_tests := false
          error := some msg } :=
  fun _ _ => rfl

/-! ## C6: the `complexity` binding is the arithmetic mean -/

/-- C6: the `complexity` variable bound during rule evaluation is the
arithmetic mean of the file's complexity values, 0.0 when there are none, and
exactly 5.0 for values `[4, 6]`. -/
theorem complexity_binding_is_mean :
    (∀ fd : SourceRecord, fd.complexity = [] → getAvgComplexity fd = 0) ∧
      (∀ fd : SourceRecord, fd.complexity ≠ [] →
        getAvgComplexity fd =
          (fd.complexity.map fun c => (c.complexity : ℚ)).sum /
            (fd.complexity.length : ℚ)) ∧
      (∀ (fd : SourceRecord) (metrics : MetricsConfig),
        (buildContext fd metrics).complexity = .float (getAvgComplexity fd)) ∧
      ∀ fd : SourceRecord, (fd.complexity.map fun c => c.complexity) = [4, 6] →
        getAvgComplexity fd = 5 := by
  refine ⟨fun fd h => by simp [getAvgComplexity, h],
    fun fd h => by simp [getAvgComplexity, h],
    fun fd metrics => rfl,
    fun fd h => ?_⟩
  have hne : fd.complexity ≠ [] := by
    intro hnil
    rw [hnil] at h
    simp at h
  have hmap : (fd.complexity.map fun c => (c.complexity : ℚ)) = [(4 : ℚ), 6] := by
    have hm : (fd.complexity.map fun c => (c.complexity : ℚ)) =
        (fd.complexity.map fun c => c.complexity).map fun z : ℤ => (z : ℚ) :=
      (List.map_map _ _ _).symm
    rw [hm, h]
    norm_num
  have hlen : fd.complexity.length = 2 := by
    have := congrArg List.length h
    simpa using this
  rw [getAvgComplexity, if_neg hne, hmap, hlen]
  norm_num

/-- Witness for C6 at concrete records: measurements `[4, 6]` give mean 5,
no measurements give 0. -/
theorem complexity_binding_is_mean_witness :
    getAvgComplexity sampleRecordCx = 5 ∧ getAvgComplexity sampleRecordNoCx = 0 :=
  ⟨complexity_binding_is_mean.2.2.2 sampleRecordCx rfl,
    complexity_binding_is_mean.1 sampleRecordNoCx rfl⟩

/-! ## C9: incremental reuse of unchanged files -/

/-- C9: in incremental mode, an unchanged file whose relative path is present
in the prior persisted index reuses that record unmodified; if the path is
absent despite the unchanged verdict, the file is scanned fresh; and the scan
emits exactly one record per discovered file. -/
theorem incremental_reuse_spec :
    (∀ (existing : String → Option SourceRecord) (f : DiscoveredFile)
        (r : SourceRecord), f.unchanged = true → existing f.relPath = some r →
        scanStep true existing f = r) ∧
      (∀ (existing : String → Option SourceRecord) (f : DiscoveredFile),
        f.unchanged = true → existing f.relPath = none →
        scanStep true existing f = scanFile f.relPath f.outcome) ∧
      ∀ (incremental : Bool) (existing : String → Option SourceRecord)
        (files : List DiscoveredFile),
        (scanRecords incremental existing files).length = files.length := by
  refine ⟨fun existing f r hu he => ?_, fun existing f hu he => ?_,
    fun incremental existing files => by simp [scanRecords]⟩
  · simp [scanStep, hu, he]
  · simp [scanStep, hu, he]

/-- Witness for C9: a concrete prior index holding `src/a.py` only; the
unchanged file `src/a.py` reuses the prior record, the unchanged file
`src/b.py` (absent from the prior index) is scanned fresh. -/
theorem incremental_reuse_spec_witness :
    scanStep true
        (fun p => if p = "src/a.py" then some sampleRecordCx else none)
        ⟨"src/a.py", true, .otherError "unused"⟩ = sampleRecordCx ∧
      scanStep true
        (fun p => if p = "src/a.py" then some sampleRecordCx else none)
        ⟨"src/b.py", true, sampleOutcome⟩ = scanFile "src/b.py" sampleOutcome :=
  ⟨incremental_reuse_spec.1 _ _ _ rfl (by simp),
    incremental_reuse_spec.2.1 _ _ rfl (by simp)⟩

/-! ## C4: a failing condition never triggers and never escapes -/

/-- C4: if evaluating a rule's condition raises any error, the rule is
treated as not triggered; `evaluate` is exactly the order-preserving
filtering of the declared actions by their condition check (so the remaining
rules are still evaluated and nothing escapes); and the spec's concrete
example — a condition referencing `undefined_var` — never triggers on any
file. -/
theorem condition_error_not_triggered :
    (∀ (cond : RuleCondition) (fd : SourceRecord) (metrics : MetricsConfig),
      evalCond cond (buildContext fd metrics) = none →
        checkCondition cond fd metrics = false) ∧
      (∀ (cfg : RuleConfig) (fd : SourceRecord),
        RuleEngine.evaluate cfg fd =
          (cfg.actions.filter fun a => checkCondition a.condition fd cfg.metrics).map
            fun a => ⟨a.id, a.message, a.action, fd.path⟩) ∧
      ∀ (fd : SourceRecord) (metrics : MetricsConfig),
        checkCondition (.expr (.cmp .gt (.name "undefined_var") (.intLit 5)))
          fd metrics = false := by
  refine ⟨fun cond fd metrics h => by simp [checkCondition, h],
    fun cfg fd => ?_, fun fd metrics => rfl⟩
  simp only [RuleEngine.evaluate]
  induction cfg.actions with
  | nil => rfl
  | cons a rest ih =>
    by_cases h : checkCondition a.condition fd cfg.metrics
    · simp [List.filterMap_cons, List.filter_cons, h, ih]
    · simp [List.filterMap_cons, List.filter_cons, h, ih]

/-- Witness for C4: a condition string the parser rejects evaluates to an
error and the rule is not triggered on a concrete file. -/
theorem condition_error_not_triggered_witness :
    checkCondition (.malformed "complexity >") sampleRecordCx metricsAbsent = false :=
  condition_error_not_triggered.1 _ _ _ rfl

/-! ## C5: the comment ratio -/

theorem roundHalfEven_nonneg {x : ℚ} (hx : 0 ≤ x) : 0 ≤ roundHalfEven x := by
  have h0 : (0 : ℤ) ≤ ⌊x⌋ := Int.floor_nonneg.2 hx
  unfold roundHalfEven
  split_ifs <;> omega

theorem roundHalfEven_le {x : ℚ} {B : ℤ} (hx : x ≤ B) : roundHalfEven x ≤ B := by
  have hfl : ⌊x⌋ ≤ B := by
    have hc := Int.floor_le_floor (α := ℚ) hx
    simpa using hc
  have hstrict : 0 < x - ⌊x⌋ → ⌊x⌋ + 1 ≤ B := by
    intro hpos
    have hlt : (⌊x⌋ : ℚ) < x := by linarith
    have hltB : (⌊x⌋ : ℚ) < (B : ℚ) := lt_of_lt_of_le hlt hx
    have : ⌊x⌋ < B := by exact_mod_cast hltB
    omega
  unfold roundHalfEven
  split_ifs with h1 h2 h3
  · exact hfl
  · exact hstrict (by linarith)
  · exact hfl
  · exact hstrict (by linarith [not_lt.mp h1])

theorem round3_zero : round3 0 = 0 := by
  have hfl : ⌊(0 : ℚ)⌋ = 0 := by simp
  unfold round3 roundHalfEven
  norm_num [hfl]

theorem round3_nonneg {x : ℚ} (hx : 0 ≤ x) : 0 ≤ round3 x := by
  unfold round3
  have h := roundHalfEven_nonneg (x := 1000 * x) (by linarith)
  exact div_nonneg (by exact_mod_cast h) (by norm_num)

theorem round3_le_one {x : ℚ} (hx : x ≤ 1) : round3 x ≤ 1 := by
  unfold round3
  have h1000 : 1000 * x ≤ ((1000 : ℤ) : ℚ) := by push_cast; linarith
  have h := roundHalfEven_le h1000
  rw [div_le_one (by norm_num)]
  exact_mod_cast h

/-- C5: for every file record, the comment ratio is 0 when the total line
count is 0, is `comments / loc` rounded to three decimals when the count is
positive, and — the comment-line count never exceeding the total line count —
always lies in `[0, 1]`. -/
theorem comment_ratio_spec (path : String) (o : FileOutcome)
    (h : (scanFile path o).raw.comments ≤ (scanFile path o).raw.loc) :
    ((scanFile path o).raw.loc = 0 → (scanFile path o).comment_ratio = 0) ∧
      (0 < (scanFile path o).raw.loc →
        (scanFile path o).comment_ratio =
          round3 (((scanFile path o).raw.comments : ℚ) /
            ((scanFile path o).raw.loc : ℚ))) ∧
      0 ≤ (scanFile path o).comment_ratio ∧
      (scanFile path o).comment_ratio ≤ 1 := by
  cases o with
  | ok body cx raw git ht =>
    simp only [scanFile] at h ⊢
    by_cases hloc : 0 < raw.loc
    · have hratio0 : (0 : ℚ) ≤ (raw.comments : ℚ) / (raw.loc : ℚ) :=
        div_nonneg (by positivity) (by positivity)
      have hratio1 : (raw.comments : ℚ) / (raw.loc : ℚ) ≤ 1 := by
        rw [div_le_one (by exact_mod_cast hloc)]
        exact_mod_cast h
      refine ⟨fun h0 => absurd h0 (by omega), fun _ => by rw [if_pos hloc], ?_, ?_⟩
      · rw [if_pos hloc]
        exact round3_nonneg hratio0
      · rw [if_pos hloc]
        exact round3_le_one hratio1
    · have hz : raw.loc = 0 := by omega
      refine ⟨fun _ => ?_, fun hpos => absurd hpos hloc, ?_, ?_⟩ <;>
        rw [if_neg hloc] <;> simp [round3_zero]
  | syntaxError msg lineno =>
    exact ⟨fun _ => rfl, fun hpos => absurd hpos (by simp [scanFile, zeroRaw]),
      by norm_num [scanFile], by norm_num [scanFile]⟩
  | otherError msg =>
    exact ⟨fun _ => rfl, fun hpos => absurd hpos (by simp [scanFile, zeroRaw]),
      by norm_num [scanFile], by norm_num [scanFile]⟩

/-- Witness for C5 at a concrete scan outcome (10 total lines, 2 comment
lines): the ratio lies in `[0, 1]` and equals `round3 (2/10)`. -/
theorem comment_ratio_spec_witness :
    (scanFile "src/a.py" sampleOutcome).raw.comments ≤
        (scanFile "src/a.py" sampleOutcome).raw.loc ∧
      (0 < (scanFile "src/a.py" sampleOutcome).raw.loc →
        (scanFile "src/a.py" sampleOutcome).comment_ratio =
          round3 (((scanFile "src/a.py" sampleOutcome).raw.comments : ℚ) /
            ((scanFile "src/a.py" sampleOutcome).raw.loc : ℚ))) ∧
      0 ≤ (scanFile "src/a.py" sampleOutcome).comment_ratio ∧
      (scanFile "src/a.py" sampleOutcome).comment_ratio ≤ 1 :=
  ⟨by decide, (comment_ratio_spec "src/a.py" sampleOutcome (by decide)).2⟩

/-! ## C7: symbol index — last write wins -/

theorem foldl_dictWrite_lookup (l : List (String × String))
    (m : String → Option String) (n : String) :
    l.foldl dictWrite m n =
      ((l.filter fun kv => decide (kv.1 = n)).getLast?).elim (m n)
        (fun kv => some kv.2) := by
  induction l generalizing m with
  | nil => rfl
  | cons kv rest ih =>
    rw [List.foldl_cons, ih]
    by_cases hk : kv.1 = n
    · rw [List.filter_cons_of_pos (by simpa using hk)]
      cases hrest : rest.filter fun kv => decide (kv.1 = n) with
      | nil => simp [dictWrite, hk]
      | cons x xs =>
        rw [List.getLast?_cons_cons]
        cases hgl : (x :: xs).getLast? with
        | none => simp at hgl
        | some last => simp
    · have hk' : ¬ n = kv.1 := fun hh => hk hh.symm
      rw [List.filter_cons_of_neg (by simpa using hk)]
      cases hgl : rest.filter fun kv => decide (kv.1 = n) with
      | nil => simp [dictWrite, hk']
      | cons x xs =>
        cases hgl2 : (x :: xs).getLast? with
        | none => simp at hgl2
        | some last => simp

theorem symbolIndex_eq_foldl (files : List SourceRecord)
    (m : String → Option String) :
    files.foldl
        (fun m fd => fd.entities.foldl
          (fun m e => dictWrite m (e.name, entityLocation fd e)) m) m =
      (symbolWrites files).foldl dictWrite m := by
  induction files generalizing m with
  | nil => rfl
  | cons fd rest ih =>
    simp only [List.foldl_cons, ih, symbolWrites, List.flatMap_cons,
      List.foldl_append, List.foldl_map]

/-- C7: the symbol index is the result of writing `name -> "path:start_line"`
for every entity, iterating files in discovery order and entities in
extraction order; a name maps to the location of the **last** write for it
(later writes silently overwrite earlier ones), and a name never written maps
to nothing. -/
theorem symbol_index_last_write_wins (files : List SourceRecord) (n : String) :
    symbolIndex files n =
      (((symbolWrites files).filter fun kv => decide (kv.1 = n)).getLast?).elim
        none (fun kv => some kv.2) := by
  unfold symbolIndex
  rw [symbolIndex_eq_foldl, foldl_dictWrite_lookup]

/-! ## C8: heuristic import resolution -/

theorem count_map_const {α : Type} (l : List α) (c x : String) :
    ((l.map fun _ => c).count x) = if x = c then l.length else 0 := by
  induction l with
  | nil => simp
  | cons a rest ih =>
    simp only [List.map_cons, List.count_cons, ih]
    by_cases hx : x = c
    · simp [hx]
    · simp [hx]
      exact fun he => hx he.symm

theorem mem_importedBy {l : List (String × List String)} {p x : String}
    (hx : x ∈ importedBy l p) : x ∈ l.map Prod.fst := by
  unfold importedBy at hx
  rcases List.mem_flatMap.mp hx with ⟨fi, hfi, hxseg⟩
  rcases List.mem_map.mp hxseg with ⟨t, _, rfl⟩
  exact List.mem_map_of_mem _ hfi

theorem importedBy_cons (fi : String × List String)
    (rest : List (String × List String)) (p : String) :
    importedBy (fi :: rest) p =
      ((fi.2.filter fun t => importMatches t p).map fun _ => fi.1) ++
        importedBy rest p := by
  simp [importedBy]

theorem importedBy_count (A : String × List String) (p : String) :
    ∀ fileImports : List (String × List String),
      (fileImports.map Prod.fst).Nodup → A ∈ fileImports →
      (importedBy fileImports p).count A.1 =
        (A.2.filter fun t => importMatches t p).length := by
  intro l
  induction l with
  | nil =>
    intro _ hA
    cases hA
  | cons fi rest ih =>
    intro hnd hA
    rw [List.map_cons] at hnd
    have hnd' := List.nodup_cons.mp hnd
    rw [importedBy_cons, List.count_append]
    rcases List.mem_cons.mp hA with hAfi | hArest
    · subst hAfi
      have hz : (importedBy rest p).count A.1 = 0 :=
        List.count_eq_zero.2 fun hmem => hnd'.1 (mem_importedBy hmem)
      rw [hz, count_map_const, if_pos rfl]
      omega
    · have hne : ¬ A.1 = fi.1 := by
        intro he
        exact hnd'.1 (he ▸ List.mem_map_of_mem Prod.fst hArest)
      rw [ih hnd'.2 hArest, count_map_const, if_neg hne]
      omega

theorem lookup_map_key {β : Type} (g : String × List String → β)
    (B : String × List String) :
    ∀ l : List (String × List String), (l.map Prod.fst).Nodup → B ∈ l →
      ((l.map fun fi => (fi.1, g fi)).lookup B.1) = some (g B) := by
  intro l
  induction l with
  | nil =>
    intro _ hB
    cases hB
  | cons fi rest ih =>
    intro hnd hB
    rw [List.map_cons] at hnd
    have hnd' := List.nodup_cons.mp hnd
    by_cases hk : fi.1 = B.1
    · have hfiB : fi = B := by
        rcases List.mem_cons.mp hB with hBfi | hBrest
        · exact hBfi.symm
        · exact absurd (hk ▸ List.mem_map_of_mem Prod.fst hBrest) hnd'.1
      simp [List.lookup, hk, hfiB]
    · have hBrest : B ∈ rest := by
        rcases List.mem_cons.mp hB with hBfi | hBrest
        · exact absurd (hBfi ▸ rfl) hk
        · exact hBrest
      have hbeq : (B.1 == fi.1) = false := by
        simp
        exact fun he => hk he.symm
      simp only [List.map_cons, List.lookup, hbeq]
      exact ih hnd'.2 hBrest

/-- C8: if one of file A's raw import targets `t` is a substring of file B's
path, or B's path ends with `t` with dots replaced by `/` plus `.py`, then
after dependency resolution B's entry has A's path in its `imported_by` list,
appended once per matching import occurrence of A. -/
theorem dependency_resolution_spec (fileImports : List (String × List String))
    (hnd : (fileImports.map Prod.fst).Nodup)
    (A B : String × List String) (hA : A ∈ fileImports) (hB : B ∈ fileImports)
    (t : String) (ht : t ∈ A.2) (hm : importMatches t B.1 = true) :
    ∃ e : DepEntry, (buildDependencyGraph fileImports).lookup B.1 = some e ∧
      A.1 ∈ e.imported_by ∧
      e.imported_by.count A.1 =
        (A.2.filter fun u => importMatches u B.1).length := by
  refine ⟨⟨B.2, importedBy fileImports B.1⟩, ?_, ?_, ?_⟩
  · exact lookup_map_key
      (fun fi => (⟨fi.2, importedBy fileImports fi.1⟩ : DepEntry)) B
      fileImports hnd hB
  · have hcount := importedBy_count A B.1 fileImports hnd hA
    have htf : t ∈ A.2.filter fun u => importMatches u B.1 :=
      List.mem_filter.2 ⟨ht, hm⟩
    have hpos : 0 < (A.2.filter fun u => importMatches u B.1).length :=
      List.length_pos_of_mem htf
    have hcpos : 0 < (importedBy fileImports B.1).count A.1 := by
      rw [hcount]
      exact hpos
    exact List.count_pos_iff.mp hcpos
  · exact importedBy_count A B.1 fileImports hnd hA

/-- The concrete file set of the spec's dependency example. -/
def depFilesSample : List (String × List String) :=
  [("src/a.py", ["pkg.mod"]), ("pkg/mod.py", [])]

/-- Witness for C8: `src/a.py` imports `pkg.mod`; `pkg/mod.py` ends with
`pkg/mod.py`, so its entry lists `src/a.py` exactly once. -/
theorem dependency_resolution_spec_witness :
    ∃ e : DepEntry,
      (buildDependencyGraph depFilesSample).lookup "pkg/mod.py" = some e ∧
        "src/a.py" ∈ e.imported_by ∧
        e.imported_by.count "src/a.py" =
          (["pkg.mod"].filter fun u => importMatches u "pkg/mod.py").length :=
  dependency_resolution_spec depFilesSample (by decide)
    ("src/a.py", ["pkg.mod"]) ("pkg/mod.py", []) (by decide) (by decide)
    "pkg.mod" (by decide) (by decide)

/-! ## C2: what `extract_entities` actually indexes -/

/-- A module defining a class with one method (the `Greeter` example from the
repository's own tests). -/
def demoModule : List PyStmt :=
  [.classDef "Greeter" [] 5 (some 9) (some "A greeter class.")
    [.funcDef false "greet" 8 (some 9) (some "Greet someone.") []]]

/-- C2 (evaluation at the failing input): `extract_entities` traverses the
whole tree with `ast.walk`, so the method `greet` of class `Greeter` is
emitted as an independent `function` entity as well as appearing in the
class's method-name list — the entity list is not restricted to top-level
declarations, contrary to the source's own comment (`Only capture top-level
functions, not methods`) and the specified invariant. -/
theorem extract_entities_indexes_method :
    extract_entities demoModule =
      [{ type := "class", name := "Greeter", lineno := 5, end_lineno := 9,
         docstring := some "A greeter class.", methods := some ["greet"],
         bases := some [] },
       { type := "function", name := "greet", lineno := 8, end_lineno := 9,
         docstring := some "Greet someone.", methods := none,
         bases := none }] := by
  simp [extract_entities, demoModule, walkList, toEntity, methodName, pyOrNat,
    PyStmt.body]

/-! ## C1: what the condition-evaluation sandbox does and does not restrict -/

/-- The condition expression `(1.0).is_integer()`. -/
def attrCallCondition : PyExpr := .call0 (.attr (.floatLit 1) "is_integer")

/-- C1 (counterexample): a condition that syntactically performs an attribute
access and a function call nevertheless evaluates successfully under
`eval(condition, {"__builtins__": {}}, context)` — here to `True`, triggering
the rule — so condition evaluation is **not** restricted to expressions with
no attribute access and no function calls over the six bound variables. -/
theorem condition_attr_call_triggers :
    attrCallCondition.hasAttrOrCall = true ∧
      evalCond (.expr attrCallCondition)
          (buildContext sampleRecordCx metricsAbsent) = some (.bool true) ∧
      checkCondition (.expr attrCallCondition) sampleRecordCx metricsAbsent
        = true :=
  ⟨rfl, rfl, rfl⟩

/-- C1 (amended): what the emptied-globals `eval` does restrict is name
resolution — any name other than the six context variables (and
`__builtins__` itself, which the globals dict still defines, bound to an
empty dict) raises `NameError`, and a rule whose condition evaluation fails
this way is not triggered. -/
theorem condition_names_restricted :
    (∀ (ctx : EvalContext) (s : String), s ≠ "complexity" → s ≠ "loc" →
      s ≠ "comment_ratio" → s ≠ "max_complexity" → s ≠ "max_loc" →
      s ≠ "min_comment_ratio" → s ≠ "__builtins__" →
      lookupName ctx s = none) ∧
      ∀ (fd : SourceRecord) (metrics : MetricsConfig) (s : String),
        lookupName (buildContext fd metrics) s = none →
        checkCondition (.expr (.name s)) fd metrics = false := by
  constructor
  · intro ctx s h1 h2 h3 h4 h5 h6 h7
    simp [lookupName, h1, h2, h3, h4, h5, h6, h7]
  · intro fd metrics s h
    simp [checkCondition, evalCond, PyExpr.eval, h]

/-- Witness for the amended C1 at a concrete unknown name. -/
theorem condition_names_restricted_witness :
    lookupName (buildContext sampleRecordCx metricsAbsent) "undefined_var"
        = none ∧
      checkCondition (.expr (.name "undefined_var")) sampleRecordCx
        metricsAbsent = false := by
  have h1 := condition_names_restricted.1
    (buildContext sampleRecordCx metricsAbsent) "undefined_var" (by decide)
    (by decide) (by decide) (by decide) (by decide) (by decide) (by decide)
  exact ⟨h1, condition_names_restricted.2 _ _ _ h1⟩

end CodeAtlas
